import Mathlib

/-!
Shallow embedding of the network resource orchestration code of
`src/modules/network/networker.go` (package `network`), together with the
data model it consumes.  The kernel primitives (the bridge, namespace and
wireguard packages) and the addressing scheme (`zosip.Nibble`) are not part
of the sampled sources; the primitives are modelled as an oracle
environment whose per-call outcomes are arbitrary, and the addressing
scheme is modelled from the specification, as documented on each
definition.  Every orchestration function returns, besides its Go result,
the ordered trace of primitive invocations it performed, so that
sequencing, short-circuiting and no-mutation properties can be stated.
-/

namespace ZosNet

/-- Go `net.IP`: a byte slice (length 4, length 16, or malformed). -/
abbrev GoIP := List Nat

/-- The 12-byte header of an IPv4-mapped IPv6 address (Go `v4InV6Prefix`
in `net/ip.go`). -/
def v4Header : List Nat := [0, 0, 0, 0, 0, 0, 0, 0, 0, 0, 255, 255]

/-- Go `net.IP.To4`: the 4-byte form of an IP, defined for 4-byte
addresses and for IPv4-mapped 16-byte addresses. -/
def goTo4 (ip : GoIP) : Option GoIP :=
  if ip.length = 4 then some ip
  else if ip.length = 16 ∧ ip.take 12 = v4Header then some (ip.drop 12)
  else none

/-- Go `net.IP.To16`: the 16-byte form of an IP; `none` exactly when the
byte slice is neither 4 nor 16 bytes long. -/
def goTo16 (ip : GoIP) : Option GoIP :=
  if ip.length = 16 then some ip
  else if ip.length = 4 then some (v4Header ++ ip)
  else none

/-- Lowercase hexadecimal digit for a value below 16. -/
def hexDigitChar (n : Nat) : Char :=
  if n < 10 then Char.ofNat (48 + n) else Char.ofNat (87 + n)

/-- Lowercase hexadecimal digits of `v` (most significant first), with a
fuel bound; empty for `v = 0`. -/
def hexDigitsAux (fuel v : Nat) : List Char :=
  match fuel with
  | 0 => []
  | f + 1 => if v = 0 then [] else hexDigitsAux f (v / 16) ++ [hexDigitChar (v % 16)]

/-- Go `%x` of a 16-bit group: lowercase hex without leading zeros. -/
def hexGroup (v : Nat) : String :=
  if v = 0 then "0" else String.mk (hexDigitsAux 8 v)

/-- Go `%x` of a single byte: exactly two lowercase hex digits. -/
def byteHex (b : Nat) : String :=
  String.mk [hexDigitChar (b / 16 % 16), hexDigitChar (b % 16)]

/-- The eight 16-bit groups of a 16-byte IPv6 address. -/
def v6Groups : List Nat → List Nat
  | hi :: lo :: rest => (hi * 256 + lo) :: v6Groups rest
  | _ => []

/-- Length of the run of zero groups at the head of the list. -/
def zeroRunLen : List Nat → Nat
  | 0 :: rest => zeroRunLen rest + 1
  | _ => 0

/-- Leftmost longest run (of length at least two) of zero groups, as
(start index, length): the `::` elision choice of Go `net.IP.String`. -/
def bestZeroRun (gs : List Nat) : Option (Nat × Nat) :=
  (List.range gs.length).foldl
    (fun best i =>
      match best with
      | none => if 2 ≤ zeroRunLen (gs.drop i) then some (i, zeroRunLen (gs.drop i)) else none
      | some (_, bl) =>
          if bl < zeroRunLen (gs.drop i) then some (i, zeroRunLen (gs.drop i)) else best)
    none

/-- Colon-joined lowercase-hex rendering of a group list. -/
def renderGroups (gs : List Nat) : String :=
  String.intercalate ":" (gs.map hexGroup)

/-- Go textual form of a 16-byte IPv6 address (RFC 5952 zero elision). -/
def ipv6String (bs : List Nat) : String :=
  match bestZeroRun (v6Groups bs) with
  | none => renderGroups (v6Groups bs)
  | some (s, l) =>
      renderGroups ((v6Groups bs).take s) ++ "::" ++ renderGroups ((v6Groups bs).drop (s + l))

/-- Go `net.IP.String`: dotted quad for (possibly mapped) IPv4, RFC 5952
text for other 16-byte addresses, a placeholder for malformed slices. -/
def ipString (ip : GoIP) : String :=
  match goTo4 ip with
  | some [a, b, c, d] =>
      toString a ++ "." ++ toString b ++ "." ++ toString c ++ "." ++ toString d
  | _ =>
      match goTo16 ip with
      | some bs => ipv6String bs
      | none => "?"

/-- Go `net.IPNet` as used by the networker: address bytes plus mask
width. -/
structure IPNet where
  ip : GoIP
  bits : Nat
deriving DecidableEq, Repr

/-- `modules.ConnType`: only the wireguard variant is handled by the
networker; every other variant is collapsed into `other`. -/
inductive ConnType where
  | wireguard
  | other
deriving DecidableEq, Repr

/-- The connection value of a peer (`peer.Connection`): public key, IP
and port. -/
structure Connection where
  key : String
  ip : GoIP
  port : Nat
deriving DecidableEq, Repr

/-- `modules.Connected`: a peer entry of a network resource. -/
structure Connected where
  type : ConnType
  connection : Connection
deriving DecidableEq, Repr

/-- `modules.NetResource`: the per-node slice of a network.  `NodeID` is
modelled by its identifying string. -/
structure NetResource where
  nodeID : String
  pfx : IPNet
  linkLocal : IPNet
  connected : List Connected
deriving DecidableEq, Repr

/-- `modules.Network`. -/
structure Network where
  netID : String
  resources : List NetResource
  allocationNR : Int
deriving DecidableEq, Repr

/-- Modelled from the spec: the addressing-scheme value (`zosip.Nibble`,
absent from src/).  Per section 4.1 it is a pure value recomputed from
`(Prefix, AllocationNR)`. -/
structure Nibble where
  pfx : IPNet
  allocNr : Int
deriving DecidableEq, Repr

/-- Modelled from the spec: `zosip.NewNibble` (absent from src/). -/
def NewNibble (pfx : IPNet) (allocNr : Int) : Nibble := ⟨pfx, allocNr⟩

/-- Modelled from the spec: `Nibble.ToV4` derives two small integers from
the prefix bytes (bytes 6 and 7 of the 16-byte form, the two bytes that
`wgIP` in networker.go also extracts), failing only on a malformed
prefix. -/
def Nibble.toV4 (n : Nibble) : Except String (Nat × Nat) :=
  match goTo16 n.pfx.ip with
  | some bs => .ok (bs.getD 6 0, bs.getD 7 0)
  | none => .error "invalid prefix"

/-- Modelled from the spec: `Nibble.Hex`, the canonical hex identifier
(hex encoding of the identifying prefix bytes) used as key-file name and
inside the derived link-local address. -/
def Nibble.hex (n : Nibble) : String :=
  match goTo16 n.pfx.ip with
  | some bs => byteHex (bs.getD 6 0) ++ byteHex (bs.getD 7 0)
  | none => ""

/-- Modelled from the spec: `Nibble.NetworkName` (namespace `n-<hex>`,
distinguished by the allocation number). -/
def Nibble.networkName (n : Nibble) : String :=
  "n-" ++ n.hex ++ "-" ++ toString n.allocNr

/-- Modelled from the spec: `Nibble.BridgeName` (bridge `b-<hex>`). -/
def Nibble.bridgeName (n : Nibble) : String :=
  "b-" ++ n.hex ++ "-" ++ toString n.allocNr

/-- Modelled from the spec: `Nibble.WiregardName` (tunnel interface). -/
def Nibble.wiregardName (n : Nibble) : String :=
  "wg-" ++ n.hex ++ "-" ++ toString n.allocNr

/-- Modelled from the spec: `Nibble.VethName`. -/
def Nibble.vethName (n : Nibble) : String :=
  "veth-" ++ n.hex ++ "-" ++ toString n.allocNr

/-- Go `filepath.Join` on one directory and one file name. -/
def pathJoin (dir name : String) : String := dir ++ "/" ++ name

/-- `wireguard.Peer`: one entry of the peer list handed to the tunnel
configuration call.  The Go zero value has empty key, empty endpoint and
nil allowed-IP list. -/
structure Peer where
  publicKey : String
  endpoint : String
  allowedIPs : List String
deriving DecidableEq, Repr

/-- The Go zero value of `wireguard.Peer`. -/
def defaultPeer : Peer := { publicKey := "", endpoint := "", allowedIPs := [] }

/-- One invocation of a kernel or storage primitive, recorded in the
order the networker performs it. -/
inductive Action where
  | bridgeNew (name : String)
  | nsCreate (name : String)
  | setupVeth (name : String) (mtu : Nat)
  | linkByName (name : String)
  | addrAdd (link : String) (addr : IPNet)
  | bridgeAttach (veth br : String)
  | wgNew (name : String)
  | nsSetLink (wg netns : String)
  | bridgeDelete (name : String)
  | nsDelete (name : String)
  | keyLoad (path : String)
  | keyGenerate (path : String)
  | nsGetByName (name : String)
  | wgGetByName (name : String)
  | wgConfigure (wg : String) (localAddr : IPNet) (key : String) (peers : List Peer)
deriving DecidableEq, Repr

/-- Oracle environment for the kernel primitives (bridge, namespace, veth
and wireguard packages, absent from src/): the outcome of each call is
arbitrary, so the orchestration logic can be stated for every outcome.
`store` models the persistent key files of spec sections 4.3 and 6, and
`freshKey` the key a generation would produce. -/
structure Env where
  bridgeNew : String → Except String Unit
  nsCreate : String → Except String Unit
  setupVeth : String → Except String (String × String)
  linkByName : String → Except String Unit
  addrAdd : String → IPNet → Except String Unit
  bridgeAttach : String → String → Except String Unit
  wgNew : String → Except String Unit
  nsSetLink : String → String → Except String Unit
  bridgeDelete : String → Except String Unit
  nsDelete : String → Except String Unit
  nsGetByName : String → Except String Unit
  wgGetByName : String → Except String Unit
  wgConfigure : String → IPNet → String → List Peer → Except String Unit
  store : String → Option String
  freshKey : String

/-- Go `net.ParseCIDR` applied to the formatted string `10.<a>.<b>.1/24`
(networker.go line 134), with the parsed IP written back over the masked
network address as the code does on line 138. -/
def parseCIDRv4 (a b : Nat) : Except String IPNet :=
  if a < 256 ∧ b < 256 then .ok ⟨[10, a, b, 1], 24⟩
  else .error "invalid CIDR address"

/-- `createNetworkResource` (networker.go lines 91-182): bridge, then
namespace, then inside the namespace the veth pair, the container-side
link lookup, the two address assignments (IPv6 prefix first, derived IPv4
second), then back on the host the host-side link lookup, the bridge
attach, the wireguard interface creation and its move into the
namespace.  Each step's failure is returned at once, together with the
trace of the primitive invocations performed so far. -/
def createNetworkResource (env : Env) (netID : String) (res : NetResource) (allocNr : Int) :
    Except String Unit × List Action :=
  match env.bridgeNew (NewNibble res.pfx allocNr).bridgeName with
  | .error e => (.error e, [.bridgeNew (NewNibble res.pfx allocNr).bridgeName])
  | .ok _ =>
  match env.nsCreate (NewNibble res.pfx allocNr).networkName with
  | .error e =>
      (.error e,
       [.bridgeNew (NewNibble res.pfx allocNr).bridgeName,
        .nsCreate (NewNibble res.pfx allocNr).networkName])
  | .ok _ =>
  match env.setupVeth (NewNibble res.pfx allocNr).vethName with
  | .error e =>
      (.error e,
       [.bridgeNew (NewNibble res.pfx allocNr).bridgeName,
        .nsCreate (NewNibble res.pfx allocNr).networkName,
        .setupVeth (NewNibble res.pfx allocNr).vethName 1500])
  | .ok veths =>
  match env.linkByName veths.2 with
  | .error e =>
      (.error e,
       [.bridgeNew (NewNibble res.pfx allocNr).bridgeName,
        .nsCreate (NewNibble res.pfx allocNr).networkName,
        .setupVeth (NewNibble res.pfx allocNr).vethName 1500,
        .linkByName veths.2])
  | .ok _ =>
  match (NewNibble res.pfx allocNr).toV4 with
  | .error e =>
      (.error e,
       [.bridgeNew (NewNibble res.pfx allocNr).bridgeName,
        .nsCreate (NewNibble res.pfx allocNr).networkName,
        .setupVeth (NewNibble res.pfx allocNr).vethName 1500,
        .linkByName veths.2])
  | .ok ab =>
  match parseCIDRv4 ab.1 ab.2 with
  | .error e =>
      (.error e,
       [.bridgeNew (NewNibble res.pfx allocNr).bridgeName,
        .nsCreate (NewNibble res.pfx allocNr).networkName,
        .setupVeth (NewNibble res.pfx allocNr).vethName 1500,
        .linkByName veths.2])
  | .ok ip4 =>
  match env.addrAdd veths.2 res.pfx with
  | .error e =>
      (.error e,
       [.bridgeNew (NewNibble res.pfx allocNr).bridgeName,
        .nsCreate (NewNibble res.pfx allocNr).networkName,
        .setupVeth (NewNibble res.pfx allocNr).vethName 1500,
        .linkByName veths.2, .addrAdd veths.2 res.pfx])
  | .ok _ =>
  match env.addrAdd veths.2 ip4 with
  | .error e =>
      (.error e,
       [.bridgeNew (NewNibble res.pfx allocNr).bridgeName,
        .nsCreate (NewNibble res.pfx allocNr).networkName,
        .setupVeth (NewNibble res.pfx allocNr).vethName 1500,
        .linkByName veths.2, .addrAdd veths.2 res.pfx, .addrAdd veths.2 ip4])
  | .ok _ =>
  match env.linkByName veths.1 with
  | .error e =>
      (.error e,
       [.bridgeNew (NewNibble res.pfx allocNr).bridgeName,
        .nsCreate (NewNibble res.pfx allocNr).networkName,
        .setupVeth (NewNibble res.pfx allocNr).vethName 1500,
        .linkByName veths.2, .addrAdd veths.2 res.pfx, .addrAdd veths.2 ip4,
        .linkByName veths.1])
  | .ok _ =>
  match env.bridgeAttach veths.1 (NewNibble res.pfx allocNr).bridgeName with
  | .error e =>
      (.error e,
       [.bridgeNew (NewNibble res.pfx allocNr).bridgeName,
        .nsCreate (NewNibble res.pfx allocNr).networkName,
        .setupVeth (NewNibble res.pfx allocNr).vethName 1500,
        .linkByName veths.2, .addrAdd veths.2 res.pfx, .addrAdd veths.2 ip4,
        .linkByName veths.1, .bridgeAttach veths.1 (NewNibble res.pfx allocNr).bridgeName])
  | .ok _ =>
  match env.wgNew (NewNibble res.pfx allocNr).wiregardName with
  | .error e =>
      (.error e,
       [.bridgeNew (NewNibble res.pfx allocNr).bridgeName,
        .nsCreate (NewNibble res.pfx allocNr).networkName,
        .setupVeth (NewNibble res.pfx allocNr).vethName 1500,
        .linkByName veths.2, .addrAdd veths.2 res.pfx, .addrAdd veths.2 ip4,
        .linkByName veths.1, .bridgeAttach veths.1 (NewNibble res.pfx allocNr).bridgeName,
        .wgNew (NewNibble res.pfx allocNr).wiregardName])
  | .ok _ =>
  match env.nsSetLink (NewNibble res.pfx allocNr).wiregardName
      (NewNibble res.pfx allocNr).networkName with
  | .error e =>
      (.error e,
       [.bridgeNew (NewNibble res.pfx allocNr).bridgeName,
        .nsCreate (NewNibble res.pfx allocNr).networkName,
        .setupVeth (NewNibble res.pfx allocNr).vethName 1500,
        .linkByName veths.2, .addrAdd veths.2 res.pfx, .addrAdd veths.2 ip4,
        .linkByName veths.1, .bridgeAttach veths.1 (NewNibble res.pfx allocNr).bridgeName,
        .wgNew (NewNibble res.pfx allocNr).wiregardName,
        .nsSetLink (NewNibble res.pfx allocNr).wiregardName (NewNibble res.pfx allocNr).networkName])
  | .ok _ =>
      (.ok (),
       [.bridgeNew (NewNibble res.pfx allocNr).bridgeName,
        .nsCreate (NewNibble res.pfx allocNr).networkName,
        .setupVeth (NewNibble res.pfx allocNr).vethName 1500,
        .linkByName veths.2, .addrAdd veths.2 res.pfx, .addrAdd veths.2 ip4,
        .linkByName veths.1, .bridgeAttach veths.1 (NewNibble res.pfx allocNr).bridgeName,
        .wgNew (NewNibble res.pfx allocNr).wiregardName,
        .nsSetLink (NewNibble res.pfx allocNr).wiregardName (NewNibble res.pfx allocNr).networkName])

/-- `deleteNetResource` (networker.go lines 184-194): delete the bridge
by name, then the namespace by name, stopping on the first error. -/
def deleteNetResource (env : Env) (res : NetResource) (allocNr : Int) :
    Except String Unit × List Action :=
  match env.bridgeDelete (NewNibble res.pfx allocNr).bridgeName with
  | .error e => (.error e, [.bridgeDelete (NewNibble res.pfx allocNr).bridgeName])
  | .ok _ =>
    match env.nsDelete (NewNibble res.pfx allocNr).networkName with
    | .error e =>
        (.error e,
         [.bridgeDelete (NewNibble res.pfx allocNr).bridgeName,
          .nsDelete (NewNibble res.pfx allocNr).networkName])
    | .ok _ =>
        (.ok (),
         [.bridgeDelete (NewNibble res.pfx allocNr).bridgeName,
          .nsDelete (NewNibble res.pfx allocNr).networkName])

/-- Modelled from the spec: `wireguard.LoadKey` (absent from src/) reads
the persisted private key at the given path, failing exactly when none is
present. -/
def loadKey (store : String → Option String) (path : String) : Except String String :=
  match store path with
  | some k => .ok k
  | none => .error ("open " ++ path ++ ": no such file or directory")

/-- Modelled from the spec: `wireguard.GenerateKey` (absent from src/)
generates a fresh key pair and persists the private key at the path,
returning the key and the updated store. -/
def generateKey (store : String → Option String) (path fresh : String) :
    String × (String → Option String) :=
  (fresh, fun p => if p = path then some fresh else store p)

/-- The key obtain step of `configureWG` (networker.go lines 206-212)
over the modelled key store: load, and only on load failure generate and
persist.  Returns the key, the resulting store and the storage trace. -/
def obtainKey (store : String → Option String) (path fresh : String) :
    String × (String → Option String) × List Action :=
  match loadKey store path with
  | .ok k => (k, store, [.keyLoad path])
  | .error _ =>
      ((generateKey store path fresh).1, (generateKey store path fresh).2,
       [.keyLoad path, .keyGenerate path])

/-- The allowed-IP set attached to every wireguard peer entry
(networker.go lines 228-231): both entries are derived from the local
resource's nibble. -/
def mkAllowedIPs (nib : Nibble) (a b : Nat) : List String :=
  ["fe80::" ++ nib.hex ++ "/128",
   "172.16." ++ toString a ++ "." ++ toString b ++ "/32"]

/-- `endpoint` (networker.go lines 260-268): bracketed form when
`IP.To16()` is non-nil, bare form otherwise. -/
def endpoint (peer : Connected) : String :=
  if (goTo16 peer.connection.ip).isSome then
    "[" ++ ipString peer.connection.ip ++ "]:" ++ toString peer.connection.port
  else
    ipString peer.connection.ip ++ ":" ++ toString peer.connection.port

/-- The peer-list construction of `configureWG` (networker.go lines
215-233): a slice of length `len(resource.Connected)` of zero-value
peers, where each wireguard-typed index is overwritten with a built
entry; non-wireguard indices keep the zero value; a `ToV4` failure
aborts. -/
def buildPeers (nib : Nibble) : List Connected → Except String (List Peer)
  | [] => .ok []
  | peer :: rest =>
    if peer.type = ConnType.wireguard then
      match nib.toV4 with
      | .error e => .error e
      | .ok ab =>
          (buildPeers nib rest).map
            (fun ps =>
              { publicKey := peer.connection.key
                endpoint := endpoint peer
                allowedIPs := mkAllowedIPs nib ab.1 ab.2 } :: ps)
    else
      (buildPeers nib rest).map (fun ps => defaultPeer :: ps)

/-- The part of `configureWG` after the key obtain step (networker.go
lines 214-257): build the peer list, get the namespace by name, and
inside it get the wireguard interface by name and apply the configuration
(link-local address, key, peers) as one call.  `t0` is the storage trace
of the key obtain step. -/
def configureWGk (env : Env) (res : NetResource) (allocNr : Int) (key : String)
    (t0 : List Action) : Except String String × List Action :=
  match buildPeers (NewNibble res.pfx allocNr) res.connected with
  | .error e => (.error e, t0)
  | .ok peers =>
    match env.nsGetByName (NewNibble res.pfx allocNr).networkName with
    | .error e => (.error e, t0 ++ [.nsGetByName (NewNibble res.pfx allocNr).networkName])
    | .ok _ =>
      match env.wgGetByName (NewNibble res.pfx allocNr).wiregardName with
      | .error e =>
          (.error e,
           t0 ++ [.nsGetByName (NewNibble res.pfx allocNr).networkName,
                  .wgGetByName (NewNibble res.pfx allocNr).wiregardName])
      | .ok _ =>
        match env.wgConfigure (NewNibble res.pfx allocNr).wiregardName res.linkLocal key peers with
        | .error e =>
            (.error e,
             t0 ++ [.nsGetByName (NewNibble res.pfx allocNr).networkName,
                    .wgGetByName (NewNibble res.pfx allocNr).wiregardName,
                    .wgConfigure (NewNibble res.pfx allocNr).wiregardName res.linkLocal key peers])
        | .ok _ =>
            (.ok key,
             t0 ++ [.nsGetByName (NewNibble res.pfx allocNr).networkName,
                    .wgGetByName (NewNibble res.pfx allocNr).wiregardName,
                    .wgConfigure (NewNibble res.pfx allocNr).wiregardName res.linkLocal key peers])

/-- `configureWG` (networker.go lines 196-258): obtain the key (load, or
generate and persist on load failure) from `<storageDir>/<Hex()>`, then
run the mesh-configuration part. -/
def configureWG (env : Env) (storageDir : String) (res : NetResource) (allocNr : Int) :
    Except String String × List Action :=
  configureWGk env res allocNr
    (obtainKey env.store (pathJoin storageDir (NewNibble res.pfx allocNr).hex) env.freshKey).1
    (obtainKey env.store (pathJoin storageDir (NewNibble res.pfx allocNr).hex) env.freshKey).2.2

/-- `applyNetResource` (networker.go lines 77-86): create, then
configure, short-circuiting on the first error. -/
def applyNetResource (env : Env) (storageDir netID : String) (res : NetResource) (allocNr : Int) :
    Except String Unit × List Action :=
  match createNetworkResource env netID res allocNr with
  | (.error e, t) => (.error e, t)
  | (.ok _, t) =>
    match configureWG env storageDir res allocNr with
    | (.error e, t2) => (.error e, t ++ t2)
    | (.ok _, t2) => (.ok (), t ++ t2)

/-- The resource-lookup loop of `ApplyNetResource` (networker.go lines
49-55): first entry whose `NodeID` equals this node's identity. -/
def applySelect (nodeID : String) : List NetResource → Option NetResource
  | [] => none
  | res :: rest => if res.nodeID = nodeID then some res else applySelect nodeID rest

/-- The resource-lookup loop of `DeleteNetResource` (networker.go lines
64-70), written separately in the source. -/
def deleteSelect (nodeID : String) : List NetResource → Option NetResource
  | [] => none
  | res :: rest => if res.nodeID = nodeID then some res else deleteSelect nodeID rest

/-- `ApplyNetResource` (networker.go lines 47-61). -/
def ApplyNetResource (env : Env) (nodeID storageDir : String) (network : Network) :
    Except String Unit × List Action :=
  match applySelect nodeID network.resources with
  | none => (.error ("not network resource for this node: " ++ nodeID), [])
  | some res => applyNetResource env storageDir network.netID res network.allocationNR

/-- `DeleteNetResource` (networker.go lines 63-75). -/
def DeleteNetResource (env : Env) (nodeID : String) (network : Network) :
    Except String Unit × List Action :=
  match deleteSelect nodeID network.resources with
  | none => (.error ("not network resource for this node: " ++ nodeID), [])
  | some res => deleteNetResource env res network.allocationNR

/-- The primitive invocations that belong to the key-obtain and
mesh-configure steps (configureWG) rather than to the builder. -/
def isConfigAction : Action → Bool
  | .keyLoad _ => true
  | .keyGenerate _ => true
  | .nsGetByName _ => true
  | .wgGetByName _ => true
  | .wgConfigure _ _ _ _ => true
  | _ => false

/-- The address assignments recorded in a trace, in order. -/
def addrAdds : List Action → List IPNet
  | [] => []
  | .addrAdd _ n :: rest => n :: addrAdds rest
  | _ :: rest => addrAdds rest

/-- Concrete resource prefix `2001:db8:1:abcd::/64`; its identifying
bytes (indices 6 and 7) are `0xab 0xcd`. -/
def samplePfx : IPNet := ⟨[32, 1, 13, 184, 0, 1, 171, 205, 0, 0, 0, 0, 0, 0, 0, 0], 64⟩

/-- Concrete link-local address `fe80::abcd/64`. -/
def sampleLL : IPNet := ⟨[254, 128, 0, 0, 0, 0, 0, 0, 0, 0, 0, 0, 0, 0, 171, 205], 64⟩

/-- A peer of a non-wireguard type. -/
def otherPeer : Connected := ⟨ConnType.other, ⟨"PKother", [1, 2, 3, 4], 1000⟩⟩

/-- A wireguard peer at IPv4 10.0.0.5, port 51820. -/
def wgPeer : Connected := ⟨ConnType.wireguard, ⟨"PKwg", [10, 0, 0, 5], 51820⟩⟩

/-- The peer entry the networker builds for `wgPeer` on the sample
resource. -/
def wgEntry : Peer :=
  { publicKey := "PKwg", endpoint := "[10.0.0.5]:51820",
    allowedIPs := ["fe80::abcd/128", "172.16.171.205/32"] }

/-- Concrete resource owned by node-1 with one non-wireguard and one
wireguard peer. -/
def sampleRes : NetResource := ⟨"node-1", samplePfx, sampleLL, [otherPeer, wgPeer]⟩

/-- A second resource owned by node-1 (duplicate-owner scenario). -/
def sampleRes2 : NetResource := ⟨"node-1", samplePfx, sampleLL, []⟩

/-- A network whose only resource belongs to a different node. -/
def foreignNet : Network := ⟨"netid", [⟨"node-2", samplePfx, sampleLL, []⟩], 0⟩

/-- A network holding two resources owned by this node. -/
def dupNet : Network := ⟨"netid", [sampleRes, sampleRes2], 0⟩

/-- Oracle environment in which every primitive call succeeds, the key
store is empty and a generation yields "GENKEY". -/
def envOk : Env where
  bridgeNew := fun _ => .ok ()
  nsCreate := fun _ => .ok ()
  setupVeth := fun n => .ok (n ++ "-h", n ++ "-c")
  linkByName := fun _ => .ok ()
  addrAdd := fun _ _ => .ok ()
  bridgeAttach := fun _ _ => .ok ()
  wgNew := fun _ => .ok ()
  nsSetLink := fun _ _ => .ok ()
  bridgeDelete := fun _ => .ok ()
  nsDelete := fun _ => .ok ()
  nsGetByName := fun _ => .ok ()
  wgGetByName := fun _ => .ok ()
  wgConfigure := fun _ _ _ _ => .ok ()
  store := fun _ => none
  freshKey := "GENKEY"

/-- Like `envOk` but bridge creation fails. -/
def envFailBridge : Env := { envOk with bridgeNew := fun _ => .error "boom" }

/-- Like `envOk` but bridge deletion fails (e.g. the bridge is absent). -/
def envFailBridgeDel : Env := { envOk with bridgeDelete := fun _ => .error "no such device" }

/-- A key store already holding a key for the sample resource under
storage directory "st". -/
def storeWithKey : String → Option String :=
  fun p => if p = "st/abcd" then some "KEY0" else none

/-! Helper lemmas shared by several results. -/

theorem applySelect_none (nodeID : String) (rs : List NetResource)
    (h : ∀ r ∈ rs, r.nodeID ≠ nodeID) : applySelect nodeID rs = none := by
  induction rs with
  | nil => rfl
  | cons r rest ih =>
      simp only [applySelect]
      rw [if_neg (h r (List.mem_cons_self r rest))]
      exact ih fun x hx => h x (List.mem_cons_of_mem r hx)

theorem applySelect_eq_deleteSelect (nodeID : String) (rs : List NetResource) :
    applySelect nodeID rs = deleteSelect nodeID rs := by
  induction rs with
  | nil => rfl
  | cons r rest ih => simp only [applySelect, deleteSelect, ih]

theorem applySelect_first (nodeID : String) (pre : List NetResource) (r : NetResource)
    (post : List NetResource) (hpre : ∀ x ∈ pre, x.nodeID ≠ nodeID)
    (hr : r.nodeID = nodeID) :
    applySelect nodeID (pre ++ r :: post) = some r := by
  induction pre with
  | nil => simp [applySelect, hr]
  | cons x rest ih =>
      simp only [List.cons_append, applySelect]
      rw [if_neg (hpre x (List.mem_cons_self x rest))]
      exact ih fun y hy => hpre y (List.mem_cons_of_mem x hy)

theorem obtainKey_trace (store : String → Option String) (path fresh : String) :
    ∃ tk, (obtainKey store path fresh).2.2 = Action.keyLoad path :: tk ∧
      ∀ q, Action.keyLoad q ∉ tk := by
  cases hs : store path with
  | some k => exact ⟨[], by simp [obtainKey, loadKey, hs], by simp⟩
  | none => exact ⟨[Action.keyGenerate path], by simp [obtainKey, loadKey, hs], by simp⟩

theorem configureWGk_trace (env : Env) (res : NetResource) (allocNr : Int) (key : String)
    (t0 : List Action) :
    ∃ suffix, (configureWGk env res allocNr key t0).2 = t0 ++ suffix ∧
      ∀ q, Action.keyLoad q ∉ suffix := by
  unfold configureWGk
  repeat' split
  · exact ⟨[], by simp, by simp⟩
  all_goals refine ⟨_, rfl, fun q => by simp⟩

theorem configureWG_trace (env : Env) (storageDir : String) (res : NetResource)
    (allocNr : Int) :
    ∃ rest, (configureWG env storageDir res allocNr).2 =
      Action.keyLoad (pathJoin storageDir (NewNibble res.pfx allocNr).hex) :: rest ∧
      ∀ q, Action.keyLoad q ∉ rest := by
  obtain ⟨tk, htk, htk2⟩ :=
    obtainKey_trace env.store (pathJoin storageDir (NewNibble res.pfx allocNr).hex) env.freshKey
  obtain ⟨suffix, hsfx, hsfx2⟩ :=
    configureWGk_trace env res allocNr
      (obtainKey env.store (pathJoin storageDir (NewNibble res.pfx allocNr).hex) env.freshKey).1
      (obtainKey env.store (pathJoin storageDir (NewNibble res.pfx allocNr).hex) env.freshKey).2.2
  refine ⟨tk ++ suffix, ?_, ?_⟩
  · rw [configureWG, hsfx, htk]
    simp
  · intro q
    simp only [List.mem_append]
    rintro (h | h)
    · exact htk2 q h
    · exact hsfx2 q h

theorem create_trace_no_config (env : Env) (netID : String) (res : NetResource)
    (allocNr : Int) :
    ∀ x ∈ (createNetworkResource env netID res allocNr).2, isConfigAction x = false := by
  unfold createNetworkResource
  repeat' split
  all_goals simp [isConfigAction]

theorem create_head (env : Env) (netID : String) (res : NetResource) (allocNr : Int) :
    (createNetworkResource env netID res allocNr).2.head? =
      some (Action.bridgeNew (NewNibble res.pfx allocNr).bridgeName) := by
  unfold createNetworkResource
  repeat' split
  all_goals simp

theorem create_nsCreate_name (env : Env) (netID : String) (res : NetResource)
    (allocNr : Int) :
    ∀ name, Action.nsCreate name ∈ (createNetworkResource env netID res allocNr).2 →
      name = (NewNibble res.pfx allocNr).networkName := by
  unfold createNetworkResource
  repeat' split
  all_goals simp

theorem create_addr_char (env : Env) (netID : String) (res : NetResource) (allocNr : Int) :
    ((createNetworkResource env netID res allocNr).1 = .ok () →
      ∃ ab, (NewNibble res.pfx allocNr).toV4 = .ok ab ∧
        addrAdds (createNetworkResource env netID res allocNr).2 =
          [res.pfx, ⟨[10, ab.1, ab.2, 1], 24⟩]) ∧
    (∀ e, (NewNibble res.pfx allocNr).toV4 = .error e →
      (createNetworkResource env netID res allocNr).1 ≠ .ok () ∧
      addrAdds (createNetworkResource env netID res allocNr).2 = []) ∧
    (∀ ab e2, (NewNibble res.pfx allocNr).toV4 = .ok ab →
      parseCIDRv4 ab.1 ab.2 = .error e2 →
      (createNetworkResource env netID res allocNr).1 ≠ .ok () ∧
      addrAdds (createNetworkResource env netID res allocNr).2 = []) := by
  unfold createNetworkResource
  cases h1 : env.bridgeNew (NewNibble res.pfx allocNr).bridgeName with
  | error e =>
      exact ⟨by simp_all, fun e2 he => by simp_all [addrAdds],
        fun ab2 e2 hab hp => by simp_all [addrAdds]⟩
  | ok u1 =>
  cases h2 : env.nsCreate (NewNibble res.pfx allocNr).networkName with
  | error e =>
      exact ⟨by simp_all, fun e2 he => by simp_all [addrAdds],
        fun ab2 e2 hab hp => by simp_all [addrAdds]⟩
  | ok u2 =>
  cases h3 : env.setupVeth (NewNibble res.pfx allocNr).vethName with
  | error e =>
      exact ⟨by simp_all, fun e2 he => by simp_all [addrAdds],
        fun ab2 e2 hab hp => by simp_all [addrAdds]⟩
  | ok veths =>
  cases h4 : env.linkByName veths.2 with
  | error e =>
      exact ⟨by simp_all, fun e2 he => by simp_all [addrAdds],
        fun ab2 e2 hab hp => by simp_all [addrAdds]⟩
  | ok u4 =>
  cases h5 : (NewNibble res.pfx allocNr).toV4 with
  | error e =>
      exact ⟨by simp_all, fun e2 he => by simp_all [addrAdds],
        fun ab2 e2 hab hp => by simp_all [addrAdds]⟩
  | ok ab =>
  cases h6 : parseCIDRv4 ab.1 ab.2 with
  | error e =>
      exact ⟨by simp_all, fun e2 he => by simp_all [addrAdds],
        fun ab2 e2 hab hp => by simp_all [addrAdds]⟩
  | ok ip4 =>
  have hip4 : ip4 = ⟨[10, ab.1, ab.2, 1], 24⟩ := by
    rw [parseCIDRv4] at h6
    split at h6
    · exact (Except.ok.inj h6).symm
    · cases h6
  subst hip4
  cases h7 : env.addrAdd veths.2 res.pfx with
  | error e =>
      exact ⟨by simp_all, fun e2 he => by simp_all [addrAdds],
        fun ab2 e2 hab hp => by simp_all [addrAdds]⟩
  | ok u7 =>
  cases h8 : env.addrAdd veths.2 ⟨[10, ab.1, ab.2, 1], 24⟩ with
  | error e =>
      exact ⟨by simp_all, fun e2 he => by simp_all [addrAdds],
        fun ab2 e2 hab hp => by simp_all [addrAdds]⟩
  | ok u8 =>
  cases h9 : env.linkByName veths.1 with
  | error e =>
      exact ⟨by simp_all, fun e2 he => by simp_all [addrAdds],
        fun ab2 e2 hab hp => by simp_all [addrAdds]⟩
  | ok u9 =>
  cases h10 : env.bridgeAttach veths.1 (NewNibble res.pfx allocNr).bridgeName with
  | error e =>
      exact ⟨by simp_all, fun e2 he => by simp_all [addrAdds],
        fun ab2 e2 hab hp => by simp_all [addrAdds]⟩
  | ok u10 =>
  cases h11 : env.wgNew (NewNibble res.pfx allocNr).wiregardName with
  | error e =>
      exact ⟨by simp_all, fun e2 he => by simp_all [addrAdds],
        fun ab2 e2 hab hp => by simp_all [addrAdds]⟩
  | ok u11 =>
  cases h12 : env.nsSetLink (NewNibble res.pfx allocNr).wiregardName
      (NewNibble res.pfx allocNr).networkName with
  | error e =>
      exact ⟨by simp_all, fun e2 he => by simp_all [addrAdds],
        fun ab2 e2 hab hp => by simp_all [addrAdds]⟩
  | ok u12 =>
      exact ⟨fun _ => ⟨ab, rfl, by simp_all [addrAdds]⟩,
        fun e2 he => by simp_all [addrAdds],
        fun ab2 e2 hab hp => by simp_all [addrAdds]⟩

/-! Results. -/

/-- C2: on a network whose resource list has no entry for this node,
ApplyNetResource fails with the no-local-resource error and invokes no
primitive at all (empty trace: no bridge, namespace, veth or tunnel
call, no key file access), and DeleteNetResource behaves the same way on
the failed lookup. -/
theorem apply_delete_no_local_resource (env : Env) (nodeID storageDir : String)
    (network : Network) (h : ∀ r ∈ network.resources, r.nodeID ≠ nodeID) :
    ApplyNetResource env nodeID storageDir network =
      (.error ("not network resource for this node: " ++ nodeID), []) ∧
    DeleteNetResource env nodeID network =
      (.error ("not network resource for this node: " ++ nodeID), []) := by
  constructor
  · unfold ApplyNetResource
    rw [applySelect_none nodeID network.resources h]
  · unfold DeleteNetResource
    rw [← applySelect_eq_deleteSelect, applySelect_none nodeID network.resources h]

theorem apply_delete_no_local_resource_witness :
    ApplyNetResource envOk "node-1" "st" foreignNet =
      (.error ("not network resource for this node: " ++ "node-1"), []) :=
  (apply_delete_no_local_resource envOk "node-1" "st" foreignNet
    (by
      intro r hr
      simp only [foreignNet, List.mem_singleton] at hr
      subst hr
      decide)).1

/-- C3: the key obtain step reads the key from `<storageDir>/<Hex()>`;
when a key is present at the path it is returned and the store is left
untouched; only on load failure is a fresh key generated and persisted at
that same path; obtaining twice returns the same key both times; a key
present at the path survives the obtain step unchanged (never silently
overwritten); and configureWG starts with exactly that load. -/
theorem obtainKey_idempotent (store : String → Option String) (path f1 f2 : String) :
    (∀ k, store path = some k →
      obtainKey store path f1 = (k, store, [Action.keyLoad path])) ∧
    (obtainKey (obtainKey store path f1).2.1 path f2).1 = (obtainKey store path f1).1 ∧
    (obtainKey store path f1).2.1 path = some (obtainKey store path f1).1 ∧
    (∀ env storageDir res allocNr,
      (configureWG env storageDir res allocNr).2.head? =
        some (Action.keyLoad (pathJoin storageDir (NewNibble res.pfx allocNr).hex))) := by
  refine ⟨?_, ?_, ?_, ?_⟩
  · intro k hk
    simp [obtainKey, loadKey, hk]
  · cases hs : store path with
    | some k => simp [obtainKey, loadKey, hs]
    | none => simp [obtainKey, loadKey, generateKey, hs]
  · cases hs : store path with
    | some k => simp [obtainKey, loadKey, hs]
    | none => simp [obtainKey, loadKey, generateKey, hs]
  · intro env storageDir res allocNr
    obtain ⟨rest, hrest, _⟩ := configureWG_trace env storageDir res allocNr
    rw [hrest]
    rfl

theorem obtainKey_idempotent_witness :
    obtainKey storeWithKey "st/abcd" "FRESH" =
      ("KEY0", storeWithKey, [Action.keyLoad "st/abcd"]) :=
  (obtainKey_idempotent storeWithKey "st/abcd" "FRESH" "FRESH2").1 "KEY0" rfl

/-- C5: refuted on the code.  The endpoint function tests `IP.To16() !=
nil`, which holds for valid IPv4 addresses as well, so the IPv4 endpoint
of the claim is rendered with brackets, `[10.0.0.5]:51820`, not
`10.0.0.5:51820`; the IPv6 example renders as the claim states. -/
theorem endpoint_brackets_ipv4 :
    endpoint ⟨ConnType.wireguard, ⟨"k", [10, 0, 0, 5], 51820⟩⟩ = "[10.0.0.5]:51820" ∧
    endpoint ⟨ConnType.wireguard, ⟨"k", [10, 0, 0, 5], 51820⟩⟩ ≠ "10.0.0.5:51820" ∧
    endpoint
        ⟨ConnType.wireguard, ⟨"k", [32, 1, 13, 184, 0, 0, 0, 0, 0, 0, 0, 0, 0, 0, 0, 1], 51820⟩⟩ =
      "[2001:db8::1]:51820" := by
  refine ⟨by decide, by decide, by decide⟩

/-- C8: the delete sequence removes the bridge by name first and the
namespace by name second; when bridge deletion fails (as it does when the
bridge does not exist), that error is surfaced and the namespace deletion
is never attempted. -/
theorem delete_bridge_first_shortcircuit (env : Env) (res : NetResource) (allocNr : Int) :
    (∀ e, env.bridgeDelete (NewNibble res.pfx allocNr).bridgeName = .error e →
      deleteNetResource env res allocNr =
        (.error e, [Action.bridgeDelete (NewNibble res.pfx allocNr).bridgeName])) ∧
    (env.bridgeDelete (NewNibble res.pfx allocNr).bridgeName = .ok () →
      deleteNetResource env res allocNr =
        (Except.map (fun _ => ()) (env.nsDelete (NewNibble res.pfx allocNr).networkName),
         [Action.bridgeDelete (NewNibble res.pfx allocNr).bridgeName,
          Action.nsDelete (NewNibble res.pfx allocNr).networkName])) := by
  constructor
  · intro e he
    simp [deleteNetResource, he]
  · intro hb
    cases hn : env.nsDelete (NewNibble res.pfx allocNr).networkName with
    | error e => simp [deleteNetResource, hb, hn, Except.map]
    | ok v => simp [deleteNetResource, hb, hn, Except.map]

theorem delete_bridge_first_shortcircuit_witness :
    deleteNetResource envFailBridgeDel sampleRes 0 =
      (.error "no such device", [Action.bridgeDelete "b-abcd-0"]) :=
  (delete_bridge_first_shortcircuit envFailBridgeDel sampleRes 0).1 "no such device" rfl

/-- C10: ApplyNetResource and DeleteNetResource run the same lookup loop,
and when several resources carry this node's NodeID both operate on the
first matching entry in list order. -/
theorem apply_delete_select_first_match (env : Env) (nodeID storageDir : String)
    (network : Network) :
    applySelect nodeID network.resources = deleteSelect nodeID network.resources ∧
    ∀ pre r post, network.resources = pre ++ r :: post →
      (∀ x ∈ pre, x.nodeID ≠ nodeID) → r.nodeID = nodeID →
      ApplyNetResource env nodeID storageDir network =
        applyNetResource env storageDir network.netID r network.allocationNR ∧
      DeleteNetResource env nodeID network = deleteNetResource env r network.allocationNR := by
  refine ⟨applySelect_eq_deleteSelect nodeID network.resources, ?_⟩
  intro pre r post hsplit hpre hr
  constructor
  · unfold ApplyNetResource
    rw [hsplit, applySelect_first nodeID pre r post hpre hr]
  · unfold DeleteNetResource
    rw [hsplit, ← applySelect_eq_deleteSelect, applySelect_first nodeID pre r post hpre hr]

theorem apply_delete_select_first_match_witness :
    ApplyNetResource envOk "node-1" "st" dupNet =
      applyNetResource envOk "st" "netid" sampleRes 0 ∧
    DeleteNetResource envOk "node-1" dupNet = deleteNetResource envOk sampleRes 0 :=
  (apply_delete_select_first_match envOk "node-1" "st" dupNet).2 [] sampleRes [sampleRes2]
    rfl (by simp) rfl

/-- C1: once the local resource is selected, ApplyNetResource runs the
builder's create step, then the key obtain step, then the mesh configure
step, in that order, returning the first error without running the later
steps: a create failure is returned as-is and its trace contains no key
or mesh action at all, a create success appends the configure trace,
and the configure trace starts with the single key load before any mesh
action. -/
theorem applyNetResource_sequencing (env : Env) (storageDir netID : String)
    (res : NetResource) (allocNr : Int) :
    (∀ nodeID network r, applySelect nodeID network.resources = some r →
      ApplyNetResource env nodeID storageDir network =
        applyNetResource env storageDir network.netID r network.allocationNR) ∧
    (∀ e t, createNetworkResource env netID res allocNr = (.error e, t) →
      applyNetResource env storageDir netID res allocNr = (.error e, t) ∧
      ∀ x ∈ t, isConfigAction x = false) ∧
    (∀ t, createNetworkResource env netID res allocNr = (.ok (), t) →
      applyNetResource env storageDir netID res allocNr =
        (Except.map (fun _ => ()) (configureWG env storageDir res allocNr).1,
         t ++ (configureWG env storageDir res allocNr).2)) ∧
    (∃ rest, (configureWG env storageDir res allocNr).2 =
      Action.keyLoad (pathJoin storageDir (NewNibble res.pfx allocNr).hex) :: rest ∧
      ∀ q, Action.keyLoad q ∉ rest) := by
  refine ⟨?_, ?_, ?_, configureWG_trace env storageDir res allocNr⟩
  · intro nodeID network r hsel
    unfold ApplyNetResource
    rw [hsel]
  · intro e t h
    constructor
    · unfold applyNetResource
      rw [h]
    · intro x hx
      refine create_trace_no_config env netID res allocNr x ?_
      have h2 : (createNetworkResource env netID res allocNr).2 = t := by rw [h]
      rw [h2]
      exact hx
  · intro t h
    unfold applyNetResource
    rw [h]
    rcases hcw : configureWG env storageDir res allocNr with ⟨r2, t2⟩
    cases r2 with
    | error e => simp [hcw, Except.map]
    | ok k => simp [hcw, Except.map]

theorem applyNetResource_sequencing_witness :
    applyNetResource envFailBridge "st" "netid" sampleRes 0 =
      (.error "boom", [Action.bridgeNew "b-abcd-0"]) :=
  ((applyNetResource_sequencing envFailBridge "st" "netid" sampleRes 0).2.1 "boom"
    [Action.bridgeNew "b-abcd-0"] rfl).1

/-- C4: refuted on the code.  The peers slice is allocated with
make([]Peer, len(Connected)) and skipped indices are left at the zero
value, so a peer of a non-wireguard type does contribute an entry — the
zero-value Peer — to the list passed to the tunnel configure call: with
Connected = [other, wireguard], the configure call receives a two-entry
list whose first entry is the zero value. -/
theorem skipped_peer_leaves_zero_entry :
    buildPeers (NewNibble samplePfx 0) [otherPeer, wgPeer] = .ok [defaultPeer, wgEntry] ∧
    defaultPeer ≠ wgEntry ∧
    (configureWG envOk "st" sampleRes 0).2 =
      [Action.keyLoad "st/abcd", Action.keyGenerate "st/abcd",
       Action.nsGetByName "n-abcd-0", Action.wgGetByName "wg-abcd-0",
       Action.wgConfigure "wg-abcd-0" sampleLL "GENKEY" [defaultPeer, wgEntry]] :=
  ⟨rfl, by decide, rfl⟩

/-- C6: every wireguard peer entry built by the mesh configure step
carries the allowed-IP set derived from the local resource's own nibble
(fe80::<hex>/128 and 172.16.a.b/32 with (a,b) from the local ToV4), not
from the peer's addresses, so all wireguard entries of one resource carry
an identical allowed-IP set. -/
theorem buildPeers_allowedIPs_from_local_nibble (nib : Nibble) (a b : Nat)
    (hab : nib.toV4 = .ok (a, b)) (conns : List Connected) (ps : List Peer)
    (h : buildPeers nib conns = .ok ps) :
    ps.length = conns.length ∧
    ∀ i, (conns.get? i).map Connected.type = some ConnType.wireguard →
      (ps.get? i).map Peer.allowedIPs = some (mkAllowedIPs nib a b) := by
  induction conns generalizing ps with
  | nil =>
      simp only [buildPeers] at h
      cases h
      simp
  | cons peer rest ih =>
      cases hrest : buildPeers nib rest with
      | error e =>
          by_cases hw : peer.type = ConnType.wireguard <;>
            simp [buildPeers, hw, hab, hrest, Except.map] at h
      | ok ps0 =>
          obtain ⟨hlen, hidx⟩ := ih ps0 hrest
          by_cases hw : peer.type = ConnType.wireguard
          · simp only [buildPeers, hw, hab, hrest, Except.map, if_true] at h
            cases h
            refine ⟨by simp [hlen], ?_⟩
            intro i hi
            cases i with
            | zero => simp [mkAllowedIPs]
            | succ n =>
                simp only [List.get?] at hi ⊢
                exact hidx n hi
          · simp only [buildPeers, hw, hrest, Except.map, if_false] at h
            cases h
            refine ⟨by simp [hlen], ?_⟩
            intro i hi
            cases i with
            | zero =>
                simp only [List.get?, Option.map] at hi
                exact absurd (Option.some.inj hi) hw
            | succ n =>
                simp only [List.get?] at hi ⊢
                exact hidx n hi

theorem buildPeers_allowedIPs_from_local_nibble_witness :
    (([defaultPeer, wgEntry].get? 1).map Peer.allowedIPs =
      some (mkAllowedIPs (NewNibble samplePfx 0) 171 205)) :=
  (buildPeers_allowedIPs_from_local_nibble (NewNibble samplePfx 0) 171 205 rfl
    [otherPeer, wgPeer] [defaultPeer, wgEntry] rfl).2 1 rfl

/-- C7: delete recomputes from (Prefix, AllocationNR) alone exactly the
bridge and namespace names create used — both are the same pure functions
of the resource, independent of the environment, so repeated
apply/delete/apply uses byte-identical names — and any two successful
creates of the same resource assign identical subnets. -/
theorem delete_regenerates_create_names (env env2 : Env) (netID : String)
    (res : NetResource) (allocNr : Int) :
    (deleteNetResource env2 res allocNr).2.head? =
      some (Action.bridgeDelete (NewNibble res.pfx allocNr).bridgeName) ∧
    (createNetworkResource env netID res allocNr).2.head? =
      some (Action.bridgeNew (NewNibble res.pfx allocNr).bridgeName) ∧
    (∀ name, Action.nsDelete name ∈ (deleteNetResource env2 res allocNr).2 →
      name = (NewNibble res.pfx allocNr).networkName) ∧
    (∀ name, Action.nsCreate name ∈ (createNetworkResource env netID res allocNr).2 →
      name = (NewNibble res.pfx allocNr).networkName) ∧
    ((createNetworkResource env netID res allocNr).1 = .ok () →
      (createNetworkResource env2 netID res allocNr).1 = .ok () →
      addrAdds (createNetworkResource env netID res allocNr).2 =
        addrAdds (createNetworkResource env2 netID res allocNr).2) := by
  refine ⟨?_, create_head env netID res allocNr, ?_,
    create_nsCreate_name env netID res allocNr, ?_⟩
  · unfold deleteNetResource
    cases h1 : env2.bridgeDelete (NewNibble res.pfx allocNr).bridgeName with
    | error e => simp_all
    | ok u =>
        cases h2 : env2.nsDelete (NewNibble res.pfx allocNr).networkName with
        | error e => simp_all
        | ok v => simp_all
  · unfold deleteNetResource
    cases h1 : env2.bridgeDelete (NewNibble res.pfx allocNr).bridgeName with
    | error e => simp_all
    | ok u =>
        cases h2 : env2.nsDelete (NewNibble res.pfx allocNr).networkName with
        | error e => simp_all
        | ok v => simp_all
  · intro hc1 hc2
    obtain ⟨ab, hab, ha⟩ := (create_addr_char env netID res allocNr).1 hc1
    obtain ⟨ab2, hab2, ha2⟩ := (create_addr_char env2 netID res allocNr).1 hc2
    rw [hab] at hab2
    cases Except.ok.inj hab2
    rw [ha, ha2]

theorem delete_regenerates_create_names_witness :
    (deleteNetResource envOk sampleRes 0).2.head? =
      some (Action.bridgeDelete "b-abcd-0") ∧
    (createNetworkResource envOk "netid" sampleRes 0).2.head? =
      some (Action.bridgeNew "b-abcd-0") :=
  ⟨(delete_regenerates_create_names envOk envOk "netid" sampleRes 0).1,
   (delete_regenerates_create_names envOk envOk "netid" sampleRes 0).2.1⟩

/-- C9: in a successful create the namespace-side veth end is assigned
exactly two addresses, in order: the resource's IPv6 Prefix and the
derived IPv4 10.a.b.1/24 with (a,b) from the Nibble's ToV4; a ToV4 or
address-parse failure aborts the create before any address is
assigned. -/
theorem create_assigns_two_addresses (env : Env) (netID : String) (res : NetResource)
    (allocNr : Int) :
    ((createNetworkResource env netID res allocNr).1 = .ok () →
      ∀ a b, (NewNibble res.pfx allocNr).toV4 = .ok (a, b) →
        addrAdds (createNetworkResource env netID res allocNr).2 =
          [res.pfx, ⟨[10, a, b, 1], 24⟩]) ∧
    (∀ e, (NewNibble res.pfx allocNr).toV4 = .error e →
      (createNetworkResource env netID res allocNr).1 ≠ .ok () ∧
      addrAdds (createNetworkResource env netID res allocNr).2 = []) ∧
    (∀ a b e2, (NewNibble res.pfx allocNr).toV4 = .ok (a, b) →
      parseCIDRv4 a b = .error e2 →
      (createNetworkResource env netID res allocNr).1 ≠ .ok () ∧
      addrAdds (createNetworkResource env netID res allocNr).2 = []) := by
  obtain ⟨hok, herr, hperr⟩ := create_addr_char env netID res allocNr
  refine ⟨?_, herr, ?_⟩
  · intro h a b hab
    obtain ⟨ab, hab2, ha⟩ := hok h
    rw [hab] at hab2
    cases Except.ok.inj hab2
    exact ha
  · intro a b e2 hab hp
    exact hperr (a, b) e2 hab hp

theorem create_assigns_two_addresses_witness :
    addrAdds (createNetworkResource envOk "netid" sampleRes 0).2 =
      [samplePfx, ⟨[10, 171, 205, 1], 24⟩] :=
  (create_assigns_two_addresses envOk "netid" sampleRes 0).1 rfl 171 205 rfl

end ZosNet
